import Mathlib

/-!
Verification development for the connex load-testing tool.

The visible repository is a Svelte/Tauri presentation layer for an HTTP
load-testing engine (the engine itself is an external collaborator named
by the frontend via the commands run_load_test and
run_load_test_with_monitoring).  The frontend code under src/ is embedded
directly; the engine (Request Executor, Metrics Aggregator, Monitor
Sampler, Run Controller) is modelled from the specification, which
reconstructs that engine from the UI contract.

Machine floats of the UI (latencies, cpu/memory percentages) are embedded
as exact rationals; die counters as naturals.
-/

namespace Connex

/-! ## Engine data model (modelled from the spec) -/

/-- Modelled from the spec: the classification bucket assigned to one
completed request attempt (spec section 4.1). -/
inductive Classification where
  | success
  | connection_error
  | timeout_error
  | http_error
  | other_error
  deriving DecidableEq, Repr

/-- Modelled from the spec: one `RequestOutcome` per completed attempt,
with elapsed latency and a classification (spec section 3). -/
structure RequestOutcome where
  latency : ℚ
  classification : Classification
  deriving DecidableEq, Repr

/-- Error statistics mapping each error classification to a count,
field names as rendered by TestResults.svelte
(`error_stats.{connection_errors,timeout_errors,http_errors,other_errors}`). -/
structure ErrorStats where
  connection_errors : Nat
  timeout_errors : Nat
  http_errors : Nat
  other_errors : Nat
  deriving DecidableEq, Repr

/-- Terminal result of a run, field names as consumed by
TestResults.svelte and +page.svelte. -/
structure TestResult where
  total_requests : Nat
  successful_requests : Nat
  failed_requests : Nat
  requests_per_second : ℚ
  average_latency : ℚ
  error_stats : ErrorStats
  deriving DecidableEq, Repr

/-- Host resource percentages, field names as consumed by the frontend
(`system_metrics.cpu_usage`, `system_metrics.memory_usage`). -/
structure SystemMetrics where
  cpu_usage : ℚ
  memory_usage : ℚ
  deriving DecidableEq, Repr

/-- Payload of one `load_test_metrics` event, field names as consumed by
+page.svelte (`rps`, `total_requests`, `successful_requests`,
`failed_requests`, `system_metrics`). -/
structure LiveMetricsSnapshot where
  rps : ℚ
  total_requests : Nat
  successful_requests : Nat
  failed_requests : Nat
  system_metrics : SystemMetrics
  deriving DecidableEq, Repr

/-! ## Metrics Aggregator (modelled from the spec, section 4.3) -/

/-- Modelled from the spec: the Metrics Aggregator's running state —
per-outcome counters, a Welford-style running mean of latencies, and a
finalized flag (after `Finalize` the Aggregator accepts no further
writes). -/
structure AggState where
  total_requests : Nat
  successful_requests : Nat
  failed_requests : Nat
  error_stats : ErrorStats
  mean_latency : ℚ
  finalized : Bool
  deriving DecidableEq, Repr

/-- Modelled from the spec: the Aggregator at the start of a run, all
counters zero. -/
def initAgg : AggState :=
  { total_requests := 0
    successful_requests := 0
    failed_requests := 0
    error_stats := { connection_errors := 0, timeout_errors := 0, http_errors := 0, other_errors := 0 }
    mean_latency := 0
    finalized := false }

/-- Modelled from the spec: `Record(outcome)` increments the
total/success/failure/error-class counters and performs an incremental
(Welford-style) running-mean latency update; after finalization the
Aggregator accepts no further writes. -/
def Record (s : AggState) (o : RequestOutcome) : AggState :=
  if s.finalized then s
  else
    let base : AggState :=
      { s with
        total_requests := s.total_requests + 1
        mean_latency := s.mean_latency + (o.latency - s.mean_latency) / ((s.total_requests : ℚ) + 1) }
    match o.classification with
    | .success =>
        { base with successful_requests := s.successful_requests + 1 }
    | .connection_error =>
        { base with failed_requests := s.failed_requests + 1
                    error_stats := { s.error_stats with connection_errors := s.error_stats.connection_errors + 1 } }
    | .timeout_error =>
        { base with failed_requests := s.failed_requests + 1
                    error_stats := { s.error_stats with timeout_errors := s.error_stats.timeout_errors + 1 } }
    | .http_error =>
        { base with failed_requests := s.failed_requests + 1
                    error_stats := { s.error_stats with http_errors := s.error_stats.http_errors + 1 } }
    | .other_error =>
        { base with failed_requests := s.failed_requests + 1
                    error_stats := { s.error_stats with other_errors := s.error_stats.other_errors + 1 } }

/-- The Aggregator state reached by recording a list of outcomes into a
fresh Aggregator. -/
def runAgg (os : List RequestOutcome) : AggState :=
  os.foldl Record initAgg

/-- Modelled from the spec: the consistent point-in-time view returned by
`Snapshot()`. -/
structure SnapshotView where
  total_requests : Nat
  successful_requests : Nat
  failed_requests : Nat
  error_stats : ErrorStats
  mean_latency : ℚ
  deriving DecidableEq, Repr

/-- Modelled from the spec: `Snapshot() -> (counts, meanLatency)` returns
a consistent point-in-time view and never mutates aggregator state (the
returned state is the input state unchanged). -/
def Snapshot (s : AggState) : SnapshotView × AggState :=
  ({ total_requests := s.total_requests
     successful_requests := s.successful_requests
     failed_requests := s.failed_requests
     error_stats := s.error_stats
     mean_latency := s.mean_latency }, s)

/-- Modelled from the spec: `Finalize(elapsed) -> TestResult` computes
`requests_per_second = total_requests / elapsed` guarding elapsed > 0,
returns `average_latency` as the accumulated running mean, and is called
exactly once: a finalized Aggregator cannot be finalized again and
accepts no further writes. -/
def Finalize (s : AggState) (elapsed : ℚ) : Option (TestResult × AggState) :=
  if s.finalized then none
  else if 0 < elapsed then
    some ({ total_requests := s.total_requests
            successful_requests := s.successful_requests
            failed_requests := s.failed_requests
            requests_per_second := (s.total_requests : ℚ) / elapsed
            average_latency := s.mean_latency
            error_stats := s.error_stats },
          { s with finalized := true })
  else none

/-! ## Request Executor classification (modelled from the spec, section 4.1) -/

/-- Modelled from the spec: the Request Executor's classification of an
attempt that received an HTTP response — `http_error` when the status
code is at least 400, `success` when it is below 400. -/
def classifyResponse (status : Nat) : Classification :=
  if 400 ≤ status then .http_error else .success

/-! ## Run Controller validation (modelled from the spec, sections 4.5 and 7) -/

/-- Test configuration as passed by the frontend:
`url`, `concurrency`, `duration` (spec section 3). -/
structure TestConfig where
  url : String
  concurrency : Nat
  duration : Nat
  deriving DecidableEq, Repr

/-- Modelled from the spec: the structured configuration error taxonomy
(invalid url / concurrency / duration), surfaced to the caller, never as
a crash. -/
inductive ConfigError where
  | invalidUrl
  | invalidConcurrency
  | invalidDuration
  deriving DecidableEq, Repr

/-- Modelled from the spec: url validity — non-empty and parseable as an
absolute URI; parseability beyond non-emptiness is abstracted to
non-emptiness, which is all the claims need. -/
def validUrl (u : String) : Bool :=
  !u.isEmpty

/-- A network action performed by the Worker Pool; the run's network
trace records every HTTP request the engine issues. -/
inductive NetworkAction where
  | httpRequest (url : String)
  deriving DecidableEq, Repr

/-- Modelled from the spec: the network activity of an admitted run —
each of the `concurrency` workers issues requests against the target. -/
def runNetworkTrace (c : TestConfig) : List NetworkAction :=
  (List.range c.concurrency).map (fun _ => NetworkAction.httpRequest c.url)

/-- Modelled from the spec: `StartRun(config)` validates the config
(url non-empty and parseable, concurrency at least 1, duration at
least 1) and fails fast with a structured ConfigError before any network
activity; a total function, so it never crashes.  The second component
is the network I/O performed by the call. -/
def StartRun (c : TestConfig) : Except ConfigError TestConfig × List NetworkAction :=
  if validUrl c.url = false then (.error .invalidUrl, [])
  else if c.concurrency < 1 then (.error .invalidConcurrency, [])
  else if c.duration < 1 then (.error .invalidDuration, [])
  else (.ok c, runNetworkTrace c)

/-! ## Engine run trace: sampler emission versus finalization
(modelled from the spec, sections 4.4 and 4.5) -/

/-- One step of an in-progress run: a worker records an outcome, the
Monitor Sampler ticks (with freshly sampled host metrics and the current
rate), or the Run Controller finalizes with the elapsed seconds. -/
inductive EngineOp where
  | record (o : RequestOutcome)
  | tick (sm : SystemMetrics) (rps : ℚ)
  | finalizeRun (elapsed : ℚ)
  deriving DecidableEq, Repr

/-- Observable engine events: a `load_test_metrics` emission carrying a
`LiveMetricsSnapshot`, or the production of the final `TestResult`. -/
inductive EngineEvent where
  | metricsEvent (m : LiveMetricsSnapshot)
  | resultProduced (r : TestResult)
  deriving DecidableEq, Repr

/-- Modelled from the spec: the snapshot emitted on one sampler tick —
a non-destructive `Aggregator.Snapshot()` read combined with freshly
sampled host CPU and memory percentages. -/
def tickSnapshot (s : AggState) (sm : SystemMetrics) (rps : ℚ) : LiveMetricsSnapshot :=
  let v := (Snapshot s).1
  { rps := rps
    total_requests := v.total_requests
    successful_requests := v.successful_requests
    failed_requests := v.failed_requests
    system_metrics := sm }

/-- Modelled from the spec: one engine step.  A tick emits a snapshot
only while the run is in progress (the sampler must not emit after
`Finalize`); finalization emits the result and freezes the
Aggregator. -/
def engineStep (s : AggState) : EngineOp → AggState × List EngineEvent
  | .record o => (Record s o, [])
  | .tick sm rps =>
      if s.finalized then (s, [])
      else (s, [.metricsEvent (tickSnapshot s sm rps)])
  | .finalizeRun e =>
      match Finalize s e with
      | some (r, s2) => (s2, [.resultProduced r])
      | none => (s, [])

/-- The event trace produced by running a list of engine operations. -/
def engineRun (s : AggState) : List EngineOp → List EngineEvent
  | [] => []
  | op :: ops =>
      let p := engineStep s op
      p.2 ++ engineRun p.1 ops

/-- Whether an engine event is a `load_test_metrics` emission. -/
def isMetricsEvent : EngineEvent → Bool
  | .metricsEvent _ => true
  | .resultProduced _ => false

/-- The trace property: once a `TestResult` has been produced, no
`LiveMetricsSnapshot` emission follows it. -/
def noMetricsAfterResult : List EngineEvent → Bool
  | [] => true
  | .resultProduced _ :: rest => rest.all (fun e => !isMetricsEvent e) && noMetricsAfterResult rest
  | .metricsEvent _ :: rest => noMetricsAfterResult rest

/-! ## Frontend embedding (src/unnamed/part_002 and src/src/routes/+page.svelte) -/

/-- A JavaScript value as it appears in the config object the frontend
passes to `invoke`. -/
inductive JsValue where
  | str (s : String)
  | num (q : ℚ)
  | boolV (b : Bool)
  deriving DecidableEq, Repr

/-- The command name the frontend uses when monitoring is enabled. -/
def commandWithMonitoring : String := "run_load_test_with_monitoring"

/-- The command name the frontend uses when monitoring is disabled. -/
def commandPlain : String := "run_load_test"

/-- The config object built by the frontend: literally
`{ url, concurrency, duration }` (src/unnamed/part_002 lines 51-55,
src/src/routes/+page.svelte lines 121-125, 131-134), embedded as an
ordered list of key/value pairs. -/
def buildConfig (url : String) (concurrency duration : ℚ) : List (String × JsValue) :=
  [("url", JsValue.str url), ("concurrency", JsValue.num concurrency),
   ("duration", JsValue.num duration)]

/-- One call to Tauri's `invoke`: a command name and the config object
passed as its argument. -/
structure InvokeCall where
  command : String
  config : List (String × JsValue)
  deriving DecidableEq, Repr

/-- The `testResult` state variable after a run: either the payload the
command resolved with, or the object `{ error: String(error) }` built in
the catch branch. -/
inductive TestResultValue where
  | payload (r : TestResult)
  | errorObj (msg : String)
  deriving DecidableEq, Repr

/-- Payload of a `load_test_metrics` event as the listener sees it: the
listener only dereferences `system_metrics` behind an optional-chaining
guard, so that field is embedded as optional. -/
structure EventPayload where
  rps : ℚ
  total_requests : Nat
  successful_requests : Nat
  failed_requests : Nat
  system_metrics : Option SystemMetrics
  deriving DecidableEq, Repr

/-- The reactive state of the monitoring page
(src/unnamed/part_002 lines 11-22). -/
structure PageState where
  url : String
  concurrency : ℚ
  duration : ℚ
  enableMonitoring : Bool
  testResult : Option TestResultValue
  isLoading : Bool
  realTimeMetrics : Option EventPayload
  cpuHistory : List ℚ
  memoryHistory : List ℚ
  deriving DecidableEq, Repr

/-- The page state at component initialization
(src/unnamed/part_002 lines 11-21). -/
def initPage : PageState :=
  { url := "http://httpbin.org/get"
    concurrency := 100
    duration := 10
    enableMonitoring := true
    testResult := none
    isLoading := false
    realTimeMetrics := none
    cpuHistory := []
    memoryHistory := [] }

/-- The history cap `maxHistoryPoints`
(src/unnamed/part_002 line 22, src/src/routes/+page.svelte line 19). -/
def maxHistoryPoints : Nat := 50

/-- The `listen('load_test_metrics')` callback
(src/unnamed/part_002 lines 25-39): store the payload in
`realTimeMetrics`; when it carries `system_metrics`, push cpu and memory
onto the history arrays and, when the cpu history exceeds
`maxHistoryPoints`, slice both down to their last `maxHistoryPoints`
entries. -/
def handleMetricsEvent (s : PageState) (payload : EventPayload) : PageState :=
  let s1 := { s with realTimeMetrics := some payload }
  match payload.system_metrics with
  | none => s1
  | some m =>
      let cpu := s1.cpuHistory ++ [m.cpu_usage]
      let mem := s1.memoryHistory ++ [m.memory_usage]
      if maxHistoryPoints < cpu.length then
        { s1 with cpuHistory := cpu.drop (cpu.length - maxHistoryPoints)
                  memoryHistory := mem.drop (mem.length - maxHistoryPoints) }
      else
        { s1 with cpuHistory := cpu, memoryHistory := mem }

/-- The `invoke` call issued by `runLoadTest`
(src/unnamed/part_002 lines 50-63): the command is selected by
`enableMonitoring`, and both branches pass the same config object
`{ url, concurrency, duration }`. -/
def runLoadTestInvoke (s : PageState) : InvokeCall :=
  { command := if s.enableMonitoring then commandWithMonitoring else commandPlain
    config := buildConfig s.url s.concurrency s.duration }

/-- The outcome of awaiting the invoked command: it resolves with a
result payload or throws, in which case `String(error)` is the thrown
error's string rendering. -/
inductive InvokeOutcome where
  | ok (r : TestResult)
  | thrown (msg : String)
  deriving DecidableEq, Repr

/-- The state transition of `runLoadTest`
(src/unnamed/part_002 lines 42-70): set `isLoading` and clear
`testResult`, `realTimeMetrics` and the histories; then on resolution
store the payload in `testResult`, on a thrown error store
`{ error: String(error) }`; the finally branch clears `isLoading` on
both paths. -/
def runLoadTest (s : PageState) (outcome : InvokeOutcome) : PageState :=
  let s1 := { s with isLoading := true, testResult := none, realTimeMetrics := none,
                     cpuHistory := [], memoryHistory := [] }
  match outcome with
  | .ok r => { s1 with testResult := some (.payload r), isLoading := false }
  | .thrown msg => { s1 with testResult := some (.errorObj msg), isLoading := false }

/-! ## Chart drawing (src/src/lib/components/Charts.svelte, drawChart) -/

/-- One canvas drawing command issued by `drawChart`. -/
inductive DrawCmd where
  | clearRect (w h : ℚ)
  | gridLine (y : ℚ)
  | moveTo (x y : ℚ)
  | lineTo (x y : ℚ)
  | dot (x y : ℚ)
  deriving DecidableEq, Repr

/-- The x coordinate of the chart point at a given index:
`(index / (data.length - 1)) * width` (Charts.svelte lines 55 and 70). -/
def chartPointX (i : Nat) (len : Nat) (w : ℚ) : ℚ :=
  ((i : ℚ) / ((len : ℚ) - 1)) * w

/-- The y coordinate of the chart point for a given value:
`height - (value / 100) * height` (Charts.svelte lines 56 and 71). -/
def chartPointY (v h : ℚ) : ℚ :=
  h - (v / 100) * h

/-- The polyline command for one indexed data value: `moveTo` at index
zero, `lineTo` otherwise (Charts.svelte lines 54-63). -/
def polyCmd (len : Nat) (w h : ℚ) (iv : Nat × ℚ) : DrawCmd :=
  if iv.1 = 0 then DrawCmd.moveTo (chartPointX iv.1 len w) (chartPointY iv.2 h)
  else DrawCmd.lineTo (chartPointX iv.1 len w) (chartPointY iv.2 h)

/-- The data-point dot command for one indexed data value
(Charts.svelte lines 69-76). -/
def dotCmd (len : Nat) (w h : ℚ) (iv : Nat × ℚ) : DrawCmd :=
  DrawCmd.dot (chartPointX iv.1 len w) (chartPointY iv.2 h)

/-- The five horizontal grid lines at `height * i / 4`, i = 0..4
(Charts.svelte lines 41-47). -/
def gridCmds (h : ℚ) : List DrawCmd :=
  (List.range 5).map (fun i => DrawCmd.gridLine (h * (i : ℚ) / 4))

/-- The drawing commands of `drawChart` (Charts.svelte lines 22-77):
nothing without a 2d context; otherwise clear the canvas, and return
early when the data has fewer than 2 points, else draw the grid, the
polyline, and the data-point dots. -/
def drawChart (hasCtx : Bool) (data : List ℚ) (w h : ℚ) : List DrawCmd :=
  if hasCtx = false then []
  else if data.length < 2 then [DrawCmd.clearRect w h]
  else
    [DrawCmd.clearRect w h] ++ gridCmds h
      ++ ((List.range data.length).zip data).map (polyCmd data.length w h)
      ++ ((List.range data.length).zip data).map (dotCmd data.length w h)

/-- Whether a drawing command carries a computed point coordinate. -/
def isPointCmd : DrawCmd → Bool
  | .moveTo _ _ => true
  | .lineTo _ _ => true
  | .dot _ _ => true
  | .clearRect _ _ => false
  | .gridLine _ => false

/-- The repeated-snapshot experiment: the views returned by n successive
`Snapshot()` calls, each threading the state the previous call
returned. -/
def snapshotSeq (s : AggState) : Nat → List SnapshotView
  | 0 => []
  | n + 1 => (Snapshot s).1 :: snapshotSeq (Snapshot s).2 n

/-- Whether the controller's answer is a structured configuration
error. -/
def isConfigError : Except ConfigError TestConfig → Bool
  | .error _ => true
  | .ok _ => false

/-- A concrete pair of request outcomes used to exercise the Aggregator:
one success with latency 1, one http_error with latency 3. -/
def demoOutcomes : List RequestOutcome :=
  [{ latency := 1, classification := .success },
   { latency := 3, classification := .http_error }]

/-- The `TestResult` the Aggregator produces for `demoOutcomes` at
elapsed 1 second. -/
def demoResult : TestResult :=
  { total_requests := 2
    successful_requests := 1
    failed_requests := 1
    requests_per_second := 2
    average_latency := 2
    error_stats := { connection_errors := 0, timeout_errors := 0, http_errors := 1, other_errors := 0 } }

/-- The frozen Aggregator state after finalizing `demoOutcomes` at
elapsed 1 second. -/
def demoFinalState : AggState :=
  { total_requests := 2
    successful_requests := 1
    failed_requests := 1
    error_stats := { connection_errors := 0, timeout_errors := 0, http_errors := 1, other_errors := 0 }
    mean_latency := 2
    finalized := true }

/-- A concrete thrown-error message used to exercise the frontend's
catch branch. -/
def demoError : String := "engine unreachable"

/-- A concrete host-metrics sample used to exercise the sampler. -/
def demoMetrics : SystemMetrics :=
  { cpu_usage := 12, memory_usage := 34 }

/-- A finalized Aggregator state used to exercise the sampler's
post-finalization behaviour. -/
def finalizedDemo : AggState :=
  { initAgg with finalized := true }

/-- The spec's rejection scenario: a config with `concurrency = 0`. -/
def demoBadConfig : TestConfig :=
  { url := "http://localhost:3000", concurrency := 0, duration := 10 }

/-! ## Aggregator lemmas -/

/-- The counting invariant of the Aggregator: the total splits into
successes plus failures, and the failures split into the four error
classes. -/
def aggCountsOk (s : AggState) : Prop :=
  s.total_requests = s.successful_requests + s.failed_requests ∧
  s.failed_requests = s.error_stats.connection_errors + s.error_stats.timeout_errors +
    s.error_stats.http_errors + s.error_stats.other_errors

theorem record_finalized (s : AggState) (o : RequestOutcome) :
    (Record s o).finalized = s.finalized := by
  unfold Record
  split
  · rfl
  · cases o.classification <;> rfl

theorem record_countsOk (s : AggState) (o : RequestOutcome) (h : aggCountsOk s) :
    aggCountsOk (Record s o) := by
  obtain ⟨h1, h2⟩ := h
  unfold Record aggCountsOk
  split
  · exact ⟨h1, h2⟩
  · cases o.classification <;> simp <;> omega

theorem foldl_countsOk (os : List RequestOutcome) (s : AggState) (h : aggCountsOk s) :
    aggCountsOk (os.foldl Record s) := by
  induction os generalizing s with
  | nil => exact h
  | cons o os ih => exact ih _ (record_countsOk s o h)

theorem runAgg_countsOk (os : List RequestOutcome) : aggCountsOk (runAgg os) :=
  foldl_countsOk os initAgg ⟨rfl, rfl⟩

theorem record_total (s : AggState) (o : RequestOutcome) (h : s.finalized = false) :
    (Record s o).total_requests = s.total_requests + 1 := by
  unfold Record
  rw [h]
  cases o.classification <;> simp

theorem record_mean (s : AggState) (o : RequestOutcome) (h : s.finalized = false) :
    (Record s o).mean_latency * ((s.total_requests : ℚ) + 1) =
      s.mean_latency * (s.total_requests : ℚ) + o.latency := by
  have hne : ((s.total_requests : ℚ) + 1) ≠ 0 := by positivity
  unfold Record
  rw [h]
  cases o.classification <;> simp <;> field_simp <;> ring

theorem foldl_record_stats (os : List RequestOutcome) (s : AggState)
    (h : s.finalized = false) :
    (os.foldl Record s).finalized = false ∧
    (os.foldl Record s).total_requests = s.total_requests + os.length ∧
    (os.foldl Record s).mean_latency * (((os.foldl Record s).total_requests : ℚ)) =
      s.mean_latency * (s.total_requests : ℚ) + (os.map RequestOutcome.latency).sum := by
  induction os generalizing s with
  | nil => exact ⟨h, rfl, by simp⟩
  | cons o os ih =>
      have hf : (Record s o).finalized = false := by rw [record_finalized]; exact h
      obtain ⟨h1, h2, h3⟩ := ih (Record s o) hf
      refine ⟨h1, ?_, ?_⟩
      · simp only [List.foldl_cons, List.length_cons]
        rw [h2, record_total s o h]
        omega
      · simp only [List.foldl_cons, List.map_cons, List.sum_cons]
        rw [h3, record_total s o h]
        push_cast
        rw [record_mean s o h]
        ring

theorem runAgg_finalized (os : List RequestOutcome) : (runAgg os).finalized = false :=
  (foldl_record_stats os initAgg rfl).1

theorem runAgg_total (os : List RequestOutcome) :
    (runAgg os).total_requests = os.length := by
  have h := (foldl_record_stats os initAgg rfl).2.1
  simpa [initAgg] using h

theorem runAgg_mean_mul (os : List RequestOutcome) :
    (runAgg os).mean_latency * (os.length : ℚ) = (os.map RequestOutcome.latency).sum := by
  have h := (foldl_record_stats os initAgg rfl).2.2
  have ht := runAgg_total os
  unfold runAgg at ht ⊢
  rw [ht] at h
  simpa [initAgg] using h

theorem runAgg_mean (os : List RequestOutcome) (h : os ≠ []) :
    (runAgg os).mean_latency = (os.map RequestOutcome.latency).sum / (os.length : ℚ) := by
  have hlen : (os.length : ℚ) ≠ 0 := by
    simp [List.length_eq_zero]
    exact h
  rw [eq_div_iff hlen]
  exact runAgg_mean_mul os

/-! ## Engine trace lemmas -/

theorem record_of_finalized (s : AggState) (o : RequestOutcome) (h : s.finalized = true) :
    Record s o = s := by
  unfold Record
  rw [h]
  simp

theorem finalize_of_finalized (s : AggState) (e : ℚ) (h : s.finalized = true) :
    Finalize s e = none := by
  unfold Finalize
  rw [h]
  simp

theorem finalize_some_finalized (s : AggState) (e : ℚ) (r : TestResult) (s2 : AggState)
    (h : Finalize s e = some (r, s2)) : s2.finalized = true := by
  unfold Finalize at h
  split at h
  · simp at h
  · split at h
    · simp only [Option.some.injEq, Prod.mk.injEq] at h
      rw [← h.2]
    · simp at h

theorem engineRun_of_finalized (ops : List EngineOp) (s : AggState)
    (h : s.finalized = true) : engineRun s ops = [] := by
  induction ops generalizing s with
  | nil => rfl
  | cons op ops ih =>
      cases op with
      | record o =>
          simp [engineRun, engineStep, record_of_finalized s o h, ih s h]
      | tick sm rps =>
          simp [engineRun, engineStep, h, ih s h]
      | finalizeRun e =>
          simp [engineRun, engineStep, finalize_of_finalized s e h, ih s h]

theorem engineRun_noMetricsAfterResult (ops : List EngineOp) (s : AggState) :
    noMetricsAfterResult (engineRun s ops) = true := by
  induction ops generalizing s with
  | nil => rfl
  | cons op ops ih =>
      cases op with
      | record o =>
          simpa [engineRun, engineStep] using ih (Record s o)
      | tick sm rps =>
          by_cases h : s.finalized = true
          · simpa [engineRun, engineStep, h] using ih s
          · simpa [engineRun, engineStep, h, noMetricsAfterResult] using ih s
      | finalizeRun e =>
          rcases hF : Finalize s e with _ | ⟨r, s2⟩
          · simpa [engineRun, engineStep, hF] using ih s
          · have h2 : s2.finalized = true := finalize_some_finalized s e r s2 hF
            simp [engineRun, engineStep, hF, engineRun_of_finalized ops s2 h2,
                  noMetricsAfterResult]

/-! ## History-cap lemma -/

theorem handle_history_step (s : PageState) (p : EventPayload)
    (h1 : s.cpuHistory.length ≤ maxHistoryPoints)
    (h2 : s.memoryHistory.length = s.cpuHistory.length) :
    (handleMetricsEvent s p).cpuHistory.length ≤ maxHistoryPoints ∧
    (handleMetricsEvent s p).memoryHistory.length =
      (handleMetricsEvent s p).cpuHistory.length := by
  rcases hp : p.system_metrics with _ | m
  · simp only [handleMetricsEvent, hp]
    exact ⟨h1, h2⟩
  · by_cases hc : maxHistoryPoints < s.cpuHistory.length + 1
    · have hEq : handleMetricsEvent s p =
          { s with realTimeMetrics := some p
                   cpuHistory := (s.cpuHistory ++ [m.cpu_usage]).drop
                     ((s.cpuHistory ++ [m.cpu_usage]).length - maxHistoryPoints)
                   memoryHistory := (s.memoryHistory ++ [m.memory_usage]).drop
                     ((s.memoryHistory ++ [m.memory_usage]).length - maxHistoryPoints) } := by
        simp only [handleMetricsEvent, hp]
        rw [if_pos (by simpa using hc)]
      rw [hEq]
      simp only [List.length_drop, List.length_append, List.length_cons, List.length_nil]
      constructor <;> omega
    · have hEq : handleMetricsEvent s p =
          { s with realTimeMetrics := some p
                   cpuHistory := s.cpuHistory ++ [m.cpu_usage]
                   memoryHistory := s.memoryHistory ++ [m.memory_usage] } := by
        simp only [handleMetricsEvent, hp]
        rw [if_neg (by simpa using hc)]
      rw [hEq]
      simp only [List.length_append, List.length_cons, List.length_nil]
      constructor <;> omega

/-! ## Claim theorems -/

/-- Claim C1: for every run that completes and yields a TestResult,
total_requests equals successful_requests plus failed_requests, and
failed_requests equals the sum of the four error_stats counters. -/
theorem claim_c1_result_count_split (os : List RequestOutcome) (e : ℚ)
    (r : TestResult) (s2 : AggState)
    (h : Finalize (runAgg os) e = some (r, s2)) :
    r.total_requests = r.successful_requests + r.failed_requests ∧
    r.failed_requests = r.error_stats.connection_errors + r.error_stats.timeout_errors +
      r.error_stats.http_errors + r.error_stats.other_errors := by
  have hc := runAgg_countsOk os
  unfold Finalize at h
  split at h
  · simp at h
  · split at h
    · simp only [Option.some.injEq, Prod.mk.injEq] at h
      obtain ⟨hr, _⟩ := h
      rw [← hr]
      exact ⟨hc.1, hc.2⟩
    · simp at h

/-- Witness for claim C1 at the concrete run `demoOutcomes`, elapsed 1
second. -/
theorem claim_c1_result_count_split_witness :
    Finalize (runAgg demoOutcomes) 1 = some (demoResult, demoFinalState) ∧
    demoResult.total_requests = demoResult.successful_requests + demoResult.failed_requests ∧
    demoResult.failed_requests = demoResult.error_stats.connection_errors +
      demoResult.error_stats.timeout_errors + demoResult.error_stats.http_errors +
      demoResult.error_stats.other_errors := by
  have h : Finalize (runAgg demoOutcomes) 1 = some (demoResult, demoFinalState) := by
    simp [demoOutcomes, runAgg, Record, initAgg, Finalize, demoResult, demoFinalState]
    norm_num
  exact ⟨h, (claim_c1_result_count_split demoOutcomes 1 demoResult demoFinalState h).1,
         (claim_c1_result_count_split demoOutcomes 1 demoResult demoFinalState h).2⟩

/-- Claim C3: for every request attempt that receives an HTTP response,
the Request Executor classifies it as http_error exactly when the status
code is at least 400, and as success exactly when it is below 400. -/
theorem claim_c3_http_classification (status : Nat) :
    (classifyResponse status = Classification.http_error ↔ 400 ≤ status) ∧
    (classifyResponse status = Classification.success ↔ status < 400) := by
  unfold classifyResponse
  by_cases h : 400 ≤ status
  · simp [h]
  · simp [h]
    omega

/-- Claim C4: Finalize(elapsed) computes requests_per_second as
total_requests divided by elapsed with a guard ensuring elapsed > 0, and
returns average_latency as the accumulated running mean over all
completed requests, successes and failures alike (equal to the
arithmetic mean of all recorded latencies). -/
theorem claim_c4_finalize_rate_mean (os : List RequestOutcome) (e : ℚ)
    (r : TestResult) (s2 : AggState)
    (h : Finalize (runAgg os) e = some (r, s2)) :
    0 < e ∧
    r.requests_per_second = ((runAgg os).total_requests : ℚ) / e ∧
    r.average_latency = (runAgg os).mean_latency ∧
    (os ≠ [] → r.average_latency = (os.map RequestOutcome.latency).sum / (os.length : ℚ)) ∧
    Finalize (runAgg os) 0 = none := by
  have hguard : Finalize (runAgg os) 0 = none := by
    unfold Finalize
    split
    · rfl
    · simp
  unfold Finalize at h
  split at h
  · simp at h
  · split at h
    · rename_i hpos
      simp only [Option.some.injEq, Prod.mk.injEq] at h
      obtain ⟨hr, _⟩ := h
      rw [← hr]
      refine ⟨hpos, rfl, rfl, ?_, hguard⟩
      intro hne
      exact runAgg_mean os hne
    · simp at h

/-- Witness for claim C4 at the concrete run `demoOutcomes`, elapsed 1
second. -/
theorem claim_c4_finalize_rate_mean_witness :
    Finalize (runAgg demoOutcomes) 1 = some (demoResult, demoFinalState) ∧
    (0 : ℚ) < 1 ∧
    demoResult.requests_per_second = ((runAgg demoOutcomes).total_requests : ℚ) / 1 ∧
    demoResult.average_latency = (runAgg demoOutcomes).mean_latency ∧
    demoResult.average_latency =
      (demoOutcomes.map RequestOutcome.latency).sum / (demoOutcomes.length : ℚ) ∧
    Finalize (runAgg demoOutcomes) 0 = none := by
  have h : Finalize (runAgg demoOutcomes) 1 = some (demoResult, demoFinalState) := by
    simp [demoOutcomes, runAgg, Record, initAgg, Finalize, demoResult, demoFinalState]
    norm_num
  have hm := claim_c4_finalize_rate_mean demoOutcomes 1 demoResult demoFinalState h
  exact ⟨h, hm.1, hm.2.1, hm.2.2.1, hm.2.2.2.1 (by simp [demoOutcomes]), hm.2.2.2.2⟩

/-- Claim C5: every config with concurrency = 0 (or any invalid url,
concurrency, or duration) is rejected by StartRun with a structured
ConfigError before any network I/O occurs; StartRun is a total function,
so it never crashes. -/
theorem claim_c5_invalid_config_rejected (c : TestConfig)
    (h : c.concurrency = 0 ∨ validUrl c.url = false ∨ c.duration = 0) :
    isConfigError (StartRun c).1 = true ∧ (StartRun c).2 = [] := by
  unfold StartRun
  by_cases hu : validUrl c.url = false
  · rw [if_pos hu]
    exact ⟨rfl, rfl⟩
  · rw [if_neg hu]
    rcases h with h | h | h
    · rw [if_pos (by omega)]
      exact ⟨rfl, rfl⟩
    · exact absurd h hu
    · by_cases hcc : c.concurrency < 1
      · rw [if_pos hcc]
        exact ⟨rfl, rfl⟩
      · rw [if_neg hcc, if_pos (by omega)]
        exact ⟨rfl, rfl⟩

/-- Witness for claim C5 at the spec's scenario, a config with
concurrency 0. -/
theorem claim_c5_invalid_config_rejected_witness :
    isConfigError (StartRun demoBadConfig).1 = true ∧ (StartRun demoBadConfig).2 = [] :=
  claim_c5_invalid_config_rejected demoBadConfig (Or.inl rfl)

/-- Counterexample to claim C2 as stated: with monitoring enabled the
frontend does invoke run_load_test_with_monitoring, but the config
object it passes contains only the fields url, concurrency and
duration — there is no enableMonitoring field in the config. -/
theorem claim_c2_counterexample :
    initPage.enableMonitoring = true ∧
    (runLoadTestInvoke initPage).command = commandWithMonitoring ∧
    "enableMonitoring" ∉ (runLoadTestInvoke initPage).config.map Prod.fst := by
  refine ⟨rfl, rfl, ?_⟩
  simp [runLoadTestInvoke, buildConfig, initPage]

/-- Claim C2 (amended): for every run started with monitoring enabled,
the frontend invokes run_load_test_with_monitoring with a config object
containing exactly the fields url, concurrency and duration (the
monitoring choice is expressed by the command name, not by a config
field), and while the run is in progress each sampler tick emits a
load_test_metrics event carrying a LiveMetricsSnapshot payload, and no
tick emits once the run has ended. -/
theorem claim_c2_monitoring_invoke (s : PageState) (h : s.enableMonitoring = true)
    (agg : AggState) (hrun : agg.finalized = false) (sm : SystemMetrics) (rps : ℚ) :
    (runLoadTestInvoke s).command = commandWithMonitoring ∧
    (runLoadTestInvoke s).config.map Prod.fst = ["url", "concurrency", "duration"] ∧
    engineStep agg (EngineOp.tick sm rps) =
      (agg, [EngineEvent.metricsEvent (tickSnapshot agg sm rps)]) ∧
    ∀ agg2 : AggState, agg2.finalized = true →
      engineStep agg2 (EngineOp.tick sm rps) = (agg2, []) := by
  refine ⟨?_, ?_, ?_, ?_⟩
  · simp [runLoadTestInvoke, h]
  · simp [runLoadTestInvoke, buildConfig]
  · simp [engineStep, hrun]
  · intro agg2 h2
    simp [engineStep, h2]

/-- Witness for claim C2 (amended) at the initial page state, a fresh
Aggregator, and a finalized Aggregator. -/
theorem claim_c2_monitoring_invoke_witness :
    (runLoadTestInvoke initPage).command = commandWithMonitoring ∧
    (runLoadTestInvoke initPage).config.map Prod.fst = ["url", "concurrency", "duration"] ∧
    engineStep initAgg (EngineOp.tick demoMetrics 0) =
      (initAgg, [EngineEvent.metricsEvent (tickSnapshot initAgg demoMetrics 0)]) ∧
    engineStep finalizedDemo (EngineOp.tick demoMetrics 0) = (finalizedDemo, []) := by
  have hm := claim_c2_monitoring_invoke initPage rfl initAgg rfl demoMetrics 0
  exact ⟨hm.1, hm.2.1, hm.2.2.1, hm.2.2.2 finalizedDemo rfl⟩

/-- Claim C6: for every run, no LiveMetricsSnapshot is emitted after
Finalize has produced the TestResult: in every event trace of the
engine, once a result is produced no metrics emission follows. -/
theorem claim_c6_no_emission_after_finalize (ops : List EngineOp) :
    noMetricsAfterResult (engineRun initAgg ops) = true :=
  engineRun_noMetricsAfterResult ops initAgg

theorem foldl_history_inv (ps : List EventPayload) (s : PageState)
    (h1 : s.cpuHistory.length ≤ maxHistoryPoints)
    (h2 : s.memoryHistory.length = s.cpuHistory.length) :
    (ps.foldl handleMetricsEvent s).cpuHistory.length ≤ maxHistoryPoints ∧
    (ps.foldl handleMetricsEvent s).memoryHistory.length =
      (ps.foldl handleMetricsEvent s).cpuHistory.length := by
  induction ps generalizing s with
  | nil => exact ⟨h1, h2⟩
  | cons p ps ih =>
      have hs := handle_history_step s p h1 h2
      exact ih (handleMetricsEvent s p) hs.1 hs.2

/-- Claim C7: after handling any sequence of load_test_metrics events,
the cpuHistory and memoryHistory arrays have length at most 50 and equal
lengths. -/
theorem claim_c7_history_capped (ps : List EventPayload) :
    (ps.foldl handleMetricsEvent initPage).cpuHistory.length ≤ 50 ∧
    (ps.foldl handleMetricsEvent initPage).memoryHistory.length =
      (ps.foldl handleMetricsEvent initPage).cpuHistory.length :=
  foldl_history_inv ps initPage (Nat.zero_le _) rfl

/-- Claim C8: for every aggregator state, calling Snapshot() any number
of times with no intervening Record call returns identical values each
time — Snapshot leaves the state unchanged, so n successive calls all
return the first call's view. -/
theorem claim_c8_snapshot_idempotent (s : AggState) (n : Nat) :
    (Snapshot s).2 = s ∧ snapshotSeq s n = List.replicate n (Snapshot s).1 := by
  refine ⟨rfl, ?_⟩
  induction n with
  | zero => rfl
  | succ n ih =>
      simpa [snapshotSeq, List.replicate_succ] using ih

/-- Claim C9: for every history array with fewer than 2 elements,
drawChart returns after clearing the canvas and before computing any
point coordinate, so the expression index / (data.length - 1) is never
evaluated with a zero denominator. -/
theorem claim_c9_drawChart_short_data (data : List ℚ) (w h : ℚ)
    (hlen : data.length < 2) :
    drawChart true data w h = [DrawCmd.clearRect w h] ∧
    ∀ c ∈ drawChart true data w h, isPointCmd c = false := by
  have he : drawChart true data w h = [DrawCmd.clearRect w h] := by
    unfold drawChart
    rw [if_neg (by simp), if_pos hlen]
  refine ⟨he, ?_⟩
  intro c hc
  rw [he] at hc
  simp only [List.mem_singleton] at hc
  subst hc
  rfl

/-- Witness for claim C9 at the one-point history [5]. -/
theorem claim_c9_drawChart_short_data_witness :
    drawChart true [5] 10 4 = [DrawCmd.clearRect 10 4] :=
  (claim_c9_drawChart_short_data [5] 10 4 (by simp)).1

/-- Claim C10: for every error thrown by the invoked backend command,
the frontend's runLoadTest catches it and sets testResult to the object
with an error field holding String(error) rather than propagating the
exception, and isLoading is false after the call returns, whether it
succeeded or failed. -/
theorem claim_c10_runLoadTest_error_handling (s : PageState) (outcome : InvokeOutcome) :
    (runLoadTest s outcome).isLoading = false ∧
    (∀ msg, outcome = InvokeOutcome.thrown msg →
      (runLoadTest s outcome).testResult = some (TestResultValue.errorObj msg)) ∧
    (∀ r, outcome = InvokeOutcome.ok r →
      (runLoadTest s outcome).testResult = some (TestResultValue.payload r)) := by
  cases outcome with
  | ok r =>
      refine ⟨rfl, ?_, ?_⟩
      · intro msg hmsg
        exact absurd hmsg (by simp)
      · intro r2 hr2
        injection hr2 with h2
        subst h2
        rfl
  | thrown msg =>
      refine ⟨rfl, ?_, ?_⟩
      · intro msg2 hm
        injection hm with h2
        subst h2
        rfl
      · intro r hr
        exact absurd hr (by simp)

/-- Witness for claim C10 at the initial page state with a thrown
engine error. -/
theorem claim_c10_runLoadTest_error_handling_witness :
    (runLoadTest initPage (InvokeOutcome.thrown demoError)).isLoading = false ∧
    (runLoadTest initPage (InvokeOutcome.thrown demoError)).testResult =
      some (TestResultValue.errorObj demoError) :=
  ⟨(claim_c10_runLoadTest_error_handling initPage (InvokeOutcome.thrown demoError)).1,
   (claim_c10_runLoadTest_error_handling initPage (InvokeOutcome.thrown demoError)).2.1
     demoError rfl⟩

end Connex
